import Mathlib

/-!
Shallow embedding of `src/hn_scraper.py`, a single-file scraper that fetches
one page, extracts story titles with a primary regular expression and a
fallback regular expression, and prints a numbered list.

Strings are modelled as `List Char`.  The two patterns used by the script are

  primary:  <span class="titleline"><a[^>]*>([^<]+)</a>
  fallback: class="titleline"[^>]*>.*?<a[^>]*>([^<]+)</a>   (DOTALL)

Both patterns are deterministic once a starting position is fixed:
`[^>]*` followed by `>` can only stop at the first `>` (the skipped
characters can never match `>`), and `([^<]+)` followed by `</a>` can only
be the maximal run of non-`<` characters (characters given back would have
to match `<`).  The lazy `.*?` tries the shortest extension first, i.e. it
scans forward for the first position where the tail matches.  `re.findall`
scans left to right and resumes after the end of each (non-empty) match,
returning the capture group of each match.
-/

namespace HNScraper

/-- Consume a literal prefix; `dropLit lit s` returns the remainder of `s`
after `lit` when `lit` is a prefix of `s`, and `none` otherwise. -/
def dropLit : List Char → List Char → Option (List Char)
  | [], s => some s
  | _ :: _, [] => none
  | c :: cs, d :: ds => if c = d then dropLit cs ds else none

/-- Semantics of `[^>]*>` at the current position: skip to the first `>`
and consume it; fail when no `>` remains. -/
def skipUntilGt : List Char → Option (List Char)
  | [] => none
  | c :: t => if c = '>' then some t else skipUntilGt t

/-- The literal `</a>` closing the anchor in both patterns. -/
def closeA : List Char := "</a>".data

/-- Semantics of `([^<]+)</a>` at the current position: capture the maximal
non-empty run of non-`<` characters, then consume the literal `</a>`.
Returns the capture and the remainder after the match. -/
def captureText (s : List Char) : Option (List Char × List Char) :=
  let cap := s.takeWhile (fun c => c != '<')
  let rest := s.dropWhile (fun c => c != '<')
  if cap = [] then none
  else (dropLit closeA rest).map (fun r => (cap, r))

/-- The literal head of the primary pattern. -/
def lit1 : List Char := "<span class=\"titleline\"><a".data

/-- One attempted match of the primary pattern
`<span class="titleline"><a[^>]*>([^<]+)</a>` at the current position:
literal head, then `[^>]*>`, then the capture. -/
def matchP1 (s : List Char) : Option (List Char × List Char) :=
  (dropLit lit1 s).bind (fun s1 => (skipUntilGt s1).bind captureText)

/-- The literal head of the fallback pattern. -/
def lit2 : List Char := "class=\"titleline\"".data

/-- The literal `<a` inside the fallback pattern. -/
def litA : List Char := "<a".data

/-- Semantics of `<a[^>]*>([^<]+)</a>`, the part of the fallback pattern
after the lazy gap. -/
def tail2 (s : List Char) : Option (List Char × List Char) :=
  (dropLit litA s).bind (fun s1 => (skipUntilGt s1).bind captureText)

/-- Semantics of `.*?` (DOTALL) followed by `tail2`: try the tail at the
current position, then one character further, and so on. -/
def lazyScan : List Char → Option (List Char × List Char)
  | [] => tail2 []
  | c :: t =>
    match tail2 (c :: t) with
    | some r => some r
    | none => lazyScan t

/-- One attempted match of the fallback pattern
`class="titleline"[^>]*>.*?<a[^>]*>([^<]+)</a>` at the current position. -/
def matchP2 (s : List Char) : Option (List Char × List Char) :=
  (dropLit lit2 s).bind (fun s1 => (skipUntilGt s1).bind lazyScan)

/-- `re.findall` driver: attempt a match at the current position; on success
record the capture and resume after the match, otherwise advance one
character.  `fuel` bounds the number of steps; `fuel = s.length` is always
enough because every successful match of either pattern consumes at least
one character. -/
def findallAux (m : List Char → Option (List Char × List Char)) :
    Nat → List Char → List (List Char)
  | 0, _ => []
  | fuel + 1, s =>
    match m s with
    | some (cap, r) => cap :: findallAux m fuel r
    | none =>
      match s with
      | [] => []
      | _ :: rest => findallAux m fuel rest

/-- `re.findall(pattern, html)` for the primary pattern (line 19 of the
script). -/
def findall1 (s : List Char) : List (List Char) :=
  findallAux matchP1 s.length s

/-- `re.findall(pattern2, html, re.DOTALL)` for the fallback pattern
(line 25 of the script). -/
def findall2 (s : List Char) : List (List Char) :=
  findallAux matchP2 s.length s

/-- The extractor (lines 19-25): run the primary pattern; only when it
produced no titles, run the fallback pattern. -/
def extractTitles (html : List Char) : List (List Char) :=
  let ts := findall1 html
  if ts = [] then findall2 html else ts

/-- Characters removed by Python `str.strip()` at both ends (ASCII
whitespace). -/
def isPySpace (c : Char) : Bool :=
  c = ' ' || c = '\t' || c = '\n' || c = '\r' || c = '\x0b' || c = '\x0c'

/-- Python `title.strip()` (line 30): remove leading and trailing
whitespace. -/
def pyStrip (s : List Char) : List Char :=
  ((s.dropWhile isPySpace).reverse.dropWhile isPySpace).reverse

/-- One `print(arg)` call appends the argument and a newline to the
stream. -/
def pyPrint (s : List Char) : List Char := s ++ ['\n']

/-- The text passed to `print` for the count header (line 28); the f-string
itself ends with an embedded newline. -/
def headerText (n : Nat) : List Char :=
  "抓取到 ".data ++ (toString n).data ++ " 个标题：\n".data

/-- The text passed to `print` for the i-th title (line 30): the 1-based
index, a dot and a space, then the stripped title. -/
def titleLine (i : Nat) (t : List Char) : List Char :=
  (toString i).data ++ ". ".data ++ pyStrip t

/-- The stream produced by the printing loop (lines 29-30), numbering from
`i`. -/
def presentLines : Nat → List (List Char) → List Char
  | _, [] => []
  | i, t :: ts => pyPrint (titleLine i t) ++ presentLines (i + 1) ts

/-- The status line printed when the primary pattern found nothing
(line 22). -/
def statusLine : List Char := "未找到标题，尝试备用模式...".data

/-- The message printed when no titles were extracted at all (line 32). -/
def notFoundLine : List Char := "未能提取到标题".data

/-- The label prefixed to the exception details on standard error
(line 35). -/
def errLabel : List Char := "错误: ".data

/-- The presenter (lines 27-32): header plus numbered list when the title
sequence is non-empty, otherwise the not-found message. -/
def present (titles : List (List Char)) : List Char :=
  if titles = [] then pyPrint notFoundLine
  else pyPrint (headerText titles.length) ++ presentLines 1 titles

/-- Observable outcome of one run: the standard-output stream, the
standard-error stream, and the process exit code. -/
structure RunResult where
  stdout : List Char
  stderr : List Char
  exitCode : Nat
deriving DecidableEq, Repr

/-- The whole program (lines 7-36), parameterised by the outcome of the
fetch-and-decode step: on an exception, print the error line to standard
error and exit 1; otherwise extract, optionally print the fallback status
line, present, and exit 0. -/
def runProgram (fetch : Except (List Char) (List Char)) : RunResult :=
  match fetch with
  | Except.error e => ⟨[], pyPrint (errLabel ++ e), 1⟩
  | Except.ok html =>
    ⟨(if findall1 html = [] then pyPrint statusLine else [])
       ++ present (extractTitles html), [], 0⟩

/-- Static description of the single HTTP request the fetcher builds
(lines 8-15): `urllib.request.Request` with no data is a GET; the response
body is decoded as UTF-8. -/
structure HttpRequest where
  url : List Char
  method : List Char
  headerPairs : List (List Char × List Char)
  timeoutSeconds : Nat
  responseEncoding : List Char
deriving DecidableEq, Repr

/-- The request as constructed by the script. -/
def theRequest : HttpRequest :=
  ⟨"https://news.ycombinator.com".data, "GET".data,
   [("User-Agent".data, "Mozilla/5.0".data)], 10, "utf-8".data⟩

/-- A well-formed titleline anchor: attribute text (between `<a` and `>`)
and anchor text, rendered as
`<span class="titleline"><a ATTRS>TEXT</a>`. -/
structure Anchor where
  attrs : List Char
  text : List Char
deriving DecidableEq, Repr

/-- Render the anchor as markup. -/
def Anchor.render (a : Anchor) : List Char :=
  lit1 ++ a.attrs ++ ('>' :: (a.text ++ closeA))

/-- Well-formedness used by the extraction claims: the anchor text is
non-empty and free of `<`, and the attribute text reaches neither the
closing `>` early nor opens a nested tag. -/
def Anchor.ok (a : Anchor) : Prop :=
  a.text ≠ [] ∧ (∀ c ∈ a.text, c ≠ '<') ∧
    (∀ c ∈ a.attrs, c ≠ '>') ∧ (∀ c ∈ a.attrs, c ≠ '<')

/-- A segment of surrounding markup that contains no `<` and therefore can
start no match of either pattern. -/
def GapOk (g : List Char) : Prop := ∀ c ∈ g, c ≠ '<'

/-- An HTML document assembled from gap/anchor pairs followed by a final
gap. -/
def buildHtml : List (List Char × Anchor) → List Char → List Char
  | [], final => final
  | (g, a) :: rest, final => g ++ (a.render ++ buildHtml rest final)

/-- Invariant of every capture of either pattern: non-empty and free of
`<`. -/
def GoodTitle (t : List Char) : Prop := t ≠ [] ∧ ∀ c ∈ t, c ≠ '<'

/-- Modelled from the spec: the count header as the specification describes
it — a single header line reporting the count, with no embedded blank
line.  Used only to compare the presenter against the spec wording. -/
def specHeader (n : Nat) : List Char :=
  "抓取到 ".data ++ (toString n).data ++ " 个标题：".data

/-- Modelled from the spec: the presenter output as the specification
describes it for a non-empty sequence — the header line, then exactly the
numbered title lines. -/
def specPresent (titles : List (List Char)) : List Char :=
  pyPrint (specHeader titles.length) ++ presentLines 1 titles

/-- The concrete scenario input used throughout the specification. -/
def exHello : List Char :=
  "<span class=\"titleline\"><a href=\"x\">Hello World</a></span>".data

/-- An input on which the primary pattern fails (markup between the
titleline span and the anchor) but the fallback pattern succeeds. -/
def exFallback : List Char :=
  "<span class=\"titleline\"><b><a href=\"x\">T</a>".data

/-- An input whose single anchor text is one space character. -/
def exSpace : List Char :=
  "<span class=\"titleline\"><a href=\"x\"> </a>".data

/-- An input whose single anchor text carries surrounding whitespace. -/
def exPadded : List Char :=
  "<span class=\"titleline\"><a href=\"x\"> Hello World </a>".data

/-- Gap/anchor decomposition of the specification scenario input. -/
def exParts : List (List Char × Anchor) :=
  [([], ⟨" href=\"x\"".data, "Hello World".data⟩)]

instance (g : List Char) : Decidable (GapOk g) := by
  unfold GapOk; infer_instance

instance (a : Anchor) : Decidable a.ok := by
  unfold Anchor.ok; infer_instance

instance (t : List Char) : Decidable (GoodTitle t) := by
  unfold GoodTitle; infer_instance

theorem dropLit_append (L s : List Char) : dropLit L (L ++ s) = some s := by
  induction L with
  | nil => rfl
  | cons c cs ih => simp [dropLit, ih]

theorem dropLit_cons_ne {a d : Char} (l s : List Char) (h : a ≠ d) :
    dropLit (a :: l) (d :: s) = none := by
  simp [dropLit, h]

theorem matchP1_cons_none (c : Char) (t : List Char) (h : c ≠ '<') :
    matchP1 (c :: t) = none := by
  have hl : lit1 = '<' :: "span class=\"titleline\"><a".data := by decide
  have h1 : dropLit lit1 (c :: t) = none := by
    rw [hl]; exact dropLit_cons_ne _ _ (Ne.symm h)
  simp [matchP1, h1]

theorem matchP1_nil : matchP1 [] = none := by decide

theorem findallAux_step {m : List Char → Option (List Char × List Char)}
    {s cap r : List Char} (n : Nat) (h : m s = some (cap, r)) :
    findallAux m (n + 1) s = cap :: findallAux m n r := by
  simp [findallAux, h]

theorem findallAux_cons_none {m : List Char → Option (List Char × List Char)}
    {c : Char} {t : List Char} (n : Nat) (h : m (c :: t) = none) :
    findallAux m (n + 1) (c :: t) = findallAux m n t := by
  simp [findallAux, h]

theorem skipUntilGt_append (attrs s : List Char) (h : ∀ c ∈ attrs, c ≠ '>') :
    skipUntilGt (attrs ++ '>' :: s) = some s := by
  induction attrs with
  | nil => simp [skipUntilGt]
  | cons c cs ih =>
    have hc : c ≠ '>' := h c (by simp)
    simp only [List.cons_append, skipUntilGt, if_neg hc]
    exact ih (fun d hd => h d (by simp [hd]))

theorem takeWhile_notLt (t u : List Char) (h : ∀ c ∈ t, c ≠ '<') :
    (t ++ '<' :: u).takeWhile (fun c => c != '<') = t := by
  induction t with
  | nil => simp [List.takeWhile_cons]
  | cons c cs ih =>
    have hc : c ≠ '<' := h c (by simp)
    simp [List.takeWhile_cons, hc]
    exact ih (fun d hd => h d (by simp [hd]))

theorem dropWhile_notLt (t u : List Char) (h : ∀ c ∈ t, c ≠ '<') :
    (t ++ '<' :: u).dropWhile (fun c => c != '<') = '<' :: u := by
  induction t with
  | nil => simp [List.dropWhile_cons]
  | cons c cs ih =>
    have hc : c ≠ '<' := h c (by simp)
    simp [List.dropWhile_cons, hc]
    exact ih (fun d hd => h d (by simp [hd]))

theorem captureText_append (text s : List Char) (hne : text ≠ [])
    (h : ∀ c ∈ text, c ≠ '<') :
    captureText (text ++ (closeA ++ s)) = some (text, s) := by
  have hc : closeA = ['<', '/', 'a', '>'] := by decide
  have hform : text ++ (closeA ++ s) = text ++ '<' :: ('/' :: 'a' :: '>' :: s) := by
    rw [hc]; rfl
  rw [hform]
  simp only [captureText, takeWhile_notLt text _ h, dropWhile_notLt text _ h]
  rw [if_neg hne, hc]
  simp [dropLit]

theorem matchP1_render (a : Anchor) (s : List Char) (h : a.ok) :
    matchP1 (a.render ++ s) = some (a.text, s) := by
  obtain ⟨hne, htext, hattr, _⟩ := h
  have hform : a.render ++ s
      = lit1 ++ (a.attrs ++ ('>' :: (a.text ++ (closeA ++ s)))) := by
    simp [Anchor.render, List.append_assoc]
  rw [hform]
  simp only [matchP1, dropLit_append, Option.some_bind,
    skipUntilGt_append a.attrs _ hattr,
    captureText_append a.text s hne htext]

theorem findallAux_gap (g s : List Char) (fuel : Nat) (hg : GapOk g) :
    findallAux matchP1 (g.length + fuel) (g ++ s) = findallAux matchP1 fuel s := by
  induction g with
  | nil => simp
  | cons c t ih =>
    have hc : c ≠ '<' := hg c (by simp)
    have hlen : (c :: t).length + fuel = (t.length + fuel) + 1 := by
      simp [List.length_cons]; omega
    rw [hlen, List.cons_append,
      findallAux_cons_none _ (matchP1_cons_none c _ hc)]
    exact ih (fun d hd => hg d (by simp [hd]))

theorem findallAux_noLt1 (fuel : Nat) :
    ∀ s : List Char, GapOk s → findallAux matchP1 fuel s = [] := by
  induction fuel with
  | zero => intro s _; rfl
  | succ n ih =>
    intro s hs
    cases s with
    | nil => simp [findallAux, matchP1_nil]
    | cons c t =>
      have hc : c ≠ '<' := hs c (by simp)
      rw [findallAux_cons_none _ (matchP1_cons_none c _ hc)]
      exact ih t (fun d hd => hs d (by simp [hd]))

theorem dropLit_subset :
    ∀ L s r : List Char, dropLit L s = some r → ∀ c ∈ r, c ∈ s := by
  intro L
  induction L with
  | nil =>
    intro s r h
    simp [dropLit] at h
    subst h; exact fun c hc => hc
  | cons a l ih =>
    intro s r h
    cases s with
    | nil => simp [dropLit] at h
    | cons d ds =>
      by_cases had : a = d
      · simp [dropLit, had] at h
        exact fun c hc => List.mem_cons_of_mem _ (ih ds r h c hc)
      · simp [dropLit, had] at h

theorem skipUntilGt_subset :
    ∀ s r : List Char, skipUntilGt s = some r → ∀ c ∈ r, c ∈ s := by
  intro s
  induction s with
  | nil => intro r h; simp [skipUntilGt] at h
  | cons d ds ih =>
    intro r h
    by_cases hd : d = '>'
    · simp [skipUntilGt, hd] at h
      subst h; exact fun c hc => List.mem_cons_of_mem _ hc
    · simp [skipUntilGt, hd] at h
      exact fun c hc => List.mem_cons_of_mem _ (ih r h c hc)

theorem tail2_none_noLt (s : List Char) (h : ∀ c ∈ s, c ≠ '<') :
    tail2 s = none := by
  cases s with
  | nil => decide
  | cons c t =>
    have hc : c ≠ '<' := h c (by simp)
    have hA : litA = '<' :: ['a'] := by decide
    have h1 : dropLit litA (c :: t) = none := by
      rw [hA]; exact dropLit_cons_ne _ _ (Ne.symm hc)
    simp [tail2, h1]

theorem lazyScan_none_noLt :
    ∀ s : List Char, (∀ c ∈ s, c ≠ '<') → lazyScan s = none := by
  intro s
  induction s with
  | nil => intro _; decide
  | cons c t ih =>
    intro h
    simp only [lazyScan, tail2_none_noLt _ h]
    exact ih (fun d hd => h d (by simp [hd]))

theorem matchP2_none_noLt (s : List Char) (h : ∀ c ∈ s, c ≠ '<') :
    matchP2 s = none := by
  cases h1 : dropLit lit2 s with
  | none => simp [matchP2, h1]
  | some r =>
    have hr : ∀ c ∈ r, c ≠ '<' := fun c hc => h c (dropLit_subset _ _ _ h1 c hc)
    cases h2 : skipUntilGt r with
    | none => simp [matchP2, h1, h2]
    | some r2 =>
      have hr2 : ∀ c ∈ r2, c ≠ '<' :=
        fun c hc => hr c (skipUntilGt_subset _ _ h2 c hc)
      simp [matchP2, h1, h2, lazyScan_none_noLt _ hr2]

theorem findallAux_noLt2 (fuel : Nat) :
    ∀ s : List Char, GapOk s → findallAux matchP2 fuel s = [] := by
  induction fuel with
  | zero => intro s _; rfl
  | succ n ih =>
    intro s hs
    cases s with
    | nil => simp [findallAux, matchP2_none_noLt [] (by simp [GapOk])]
    | cons c t =>
      rw [findallAux_cons_none _ (matchP2_none_noLt _ hs)]
      exact ih t (fun d hd => hs d (by simp [hd]))

theorem findall1_build :
    ∀ (parts : List (List Char × Anchor)) (final : List Char),
      (∀ p ∈ parts, GapOk p.1 ∧ (p.2).ok) → GapOk final →
      ∀ fuel : Nat,
        findallAux matchP1 ((buildHtml parts final).length + fuel)
            (buildHtml parts final)
          = parts.map (fun p => (p.2).text) := by
  intro parts
  induction parts with
  | nil =>
    intro final _ hf fuel
    simpa [buildHtml] using findallAux_noLt1 (final.length + fuel) final hf
  | cons p ps ih =>
    intro final hp hf fuel
    obtain ⟨g, a⟩ := p
    obtain ⟨hg, ha⟩ := hp (g, a) (by simp)
    have hps : ∀ q ∈ ps, GapOk q.1 ∧ (q.2).ok :=
      fun q hq => hp q (by simp [hq])
    have hb : buildHtml ((g, a) :: ps) final
        = g ++ (a.render ++ buildHtml ps final) := rfl
    have hpos : 0 < a.render.length := by
      have hlit : lit1.length = 26 := by decide
      simp [Anchor.render, List.length_append, hlit]
    rw [hb]
    have hlen : (g ++ (a.render ++ buildHtml ps final)).length
        = g.length + (a.render.length + (buildHtml ps final).length) := by
      simp [List.length_append]
    rw [hlen]
    have e1 : g.length + (a.render.length + (buildHtml ps final).length) + fuel
        = g.length + (a.render.length + (buildHtml ps final).length + fuel) := by
      omega
    rw [e1, findallAux_gap g _ _ hg]
    have e2 : a.render.length + (buildHtml ps final).length + fuel
        = ((buildHtml ps final).length + (a.render.length - 1 + fuel)) + 1 := by
      omega
    rw [e2, findallAux_step _ (matchP1_render a _ ha),
      ih final hps hf (a.render.length - 1 + fuel)]
    simp

theorem captureText_good {s cap r : List Char}
    (h : captureText s = some (cap, r)) : GoodTitle cap := by
  simp only [captureText] at h
  by_cases he : s.takeWhile (fun c => c != '<') = []
  · rw [if_pos he] at h
    exact Option.noConfusion h
  · rw [if_neg he] at h
    cases hd : dropLit closeA (s.dropWhile (fun c => c != '<')) with
    | none => rw [hd] at h; simp at h
    | some r0 =>
      rw [hd] at h
      simp at h
      obtain ⟨hcap, _⟩ := h
      constructor
      · rw [← hcap]; exact he
      · intro c hcmem
        rw [← hcap] at hcmem
        have := List.mem_takeWhile_imp hcmem
        simpa using this

theorem matchP1_good {s cap r : List Char}
    (h : matchP1 s = some (cap, r)) : GoodTitle cap := by
  simp only [matchP1, Option.bind_eq_some] at h
  obtain ⟨s1, _, s2, _, hcap⟩ := h
  exact captureText_good hcap

theorem tail2_good {s cap r : List Char}
    (h : tail2 s = some (cap, r)) : GoodTitle cap := by
  simp only [tail2, Option.bind_eq_some] at h
  obtain ⟨s1, _, s2, _, hcap⟩ := h
  exact captureText_good hcap

theorem lazyScan_good :
    ∀ {s cap r : List Char}, lazyScan s = some (cap, r) → GoodTitle cap := by
  intro s
  induction s with
  | nil =>
    intro cap r h
    simp only [lazyScan] at h
    exact tail2_good h
  | cons c t ih =>
    intro cap r h
    simp only [lazyScan] at h
    cases h2 : tail2 (c :: t) with
    | some v =>
      rw [h2] at h
      simp at h
      rw [h] at h2
      exact tail2_good h2
    | none =>
      rw [h2] at h
      exact ih h

theorem matchP2_good {s cap r : List Char}
    (h : matchP2 s = some (cap, r)) : GoodTitle cap := by
  simp only [matchP2, Option.bind_eq_some] at h
  obtain ⟨s1, _, s2, _, hcap⟩ := h
  exact lazyScan_good hcap

theorem mem_findallAux
    {m : List Char → Option (List Char × List Char)}
    (hm : ∀ {s cap r : List Char}, m s = some (cap, r) → GoodTitle cap) :
    ∀ (fuel : Nat) (s t : List Char), t ∈ findallAux m fuel s → GoodTitle t := by
  intro fuel
  induction fuel with
  | zero => intro s t ht; simp [findallAux] at ht
  | succ n ih =>
    intro s t ht
    cases h : m s with
    | some cr =>
      obtain ⟨cap, r⟩ := cr
      rw [findallAux_step _ h] at ht
      rcases List.mem_cons.mp ht with h1 | h2
      · subst h1; exact hm h
      · exact ih r t h2
    | none =>
      cases s with
      | nil => simp [findallAux, h] at ht
      | cons c cs =>
        rw [findallAux_cons_none _ h] at ht
        exact ih cs t ht

theorem headerText_eq (n : Nat) :
    headerText n = specHeader n ++ ['\n'] := by
  have h : (" 个标题：\n".data : List Char) = " 个标题：".data ++ ['\n'] := by
    decide
  simp [headerText, specHeader, h]

/-- C1: for every HTML input assembled from N well-formed titleline anchors
(non-empty anchor text free of `<`) separated by markup that starts no
match, the extractor returns exactly the N anchor texts in document order;
in particular the scenario input yields exactly the sequence holding the
single title Hello World. -/
theorem c1_extractor_count_and_order :
    (∀ (parts : List (List Char × Anchor)) (final : List Char),
        (∀ p ∈ parts, GapOk p.1 ∧ (p.2).ok) → GapOk final →
        extractTitles (buildHtml parts final)
          = parts.map (fun p => (p.2).text))
    ∧ extractTitles exHello = ["Hello World".data] := by
  constructor
  · intro parts final hp hf
    have h1 : findall1 (buildHtml parts final)
        = parts.map (fun p => (p.2).text) := by
      have := findall1_build parts final hp hf 0
      simpa [findall1] using this
    cases parts with
    | nil =>
      have h2 : findall2 (buildHtml [] final) = [] := by
        simpa [findall2, buildHtml]
          using findallAux_noLt2 final.length final hf
      simp [extractTitles, h1, h2]
    | cons p ps => simp [extractTitles, h1]
  · decide

/-- Witness for C1 at a concrete decomposition: one anchor, empty gaps. -/
theorem c1_witness :
    (∀ p ∈ exParts, GapOk p.1 ∧ (p.2).ok) ∧ GapOk []
      ∧ extractTitles (buildHtml exParts []) = ["Hello World".data] :=
  ⟨by decide, by decide,
    c1_extractor_count_and_order.1 exParts [] (by decide) (by decide)⟩

/-- C2: the fallback pattern is consulted exactly when the primary pattern
yields no matches; with primary matches present the result is the primary
matches, and with none it is exactly the fallback matches. -/
theorem c2_fallback_iff_primary_empty :
    ∀ html : List Char,
      (findall1 html ≠ [] → extractTitles html = findall1 html)
      ∧ (findall1 html = [] → extractTitles html = findall2 html) := by
  intro html
  constructor
  · intro h; simp [extractTitles, h]
  · intro h; simp [extractTitles, h]

/-- Witness for C2: a run where the primary succeeds and a run where only
the fallback succeeds. -/
theorem c2_witness :
    (findall1 exHello ≠ [] ∧ extractTitles exHello = findall1 exHello)
    ∧ (findall1 exFallback = []
        ∧ extractTitles exFallback = findall2 exFallback) :=
  ⟨⟨by decide, (c2_fallback_iff_primary_empty exHello).1 (by decide)⟩,
   ⟨by decide, (c2_fallback_iff_primary_empty exFallback).2 (by decide)⟩⟩

/-- C3 counterexample: on an input where both patterns fail, standard
output is not the single not-found message, because the fallback status
line was printed first. -/
theorem c3_counterexample :
    findall1 ([] : List Char) = [] ∧ findall2 ([] : List Char) = []
      ∧ (runProgram (Except.ok ([] : List Char))).stdout
          ≠ pyPrint notFoundLine := by
  decide

/-- C3 (amended): when both patterns yield zero matches, standard output is
exactly the fallback status line followed by the not-found message, nothing
is printed to standard error, and the exit code is 0. -/
theorem c3_both_patterns_empty :
    ∀ html : List Char, findall1 html = [] → findall2 html = [] →
      runProgram (Except.ok html)
        = ⟨pyPrint statusLine ++ pyPrint notFoundLine, [], 0⟩ := by
  intro html h1 h2
  have hx : extractTitles html = [] := by simp [extractTitles, h1, h2]
  simp [runProgram, h1, hx, present]

/-- Witness for C3 at the empty input, on which both patterns fail. -/
theorem c3_witness :
    findall1 ([] : List Char) = [] ∧ findall2 ([] : List Char) = []
      ∧ runProgram (Except.ok ([] : List Char))
          = ⟨pyPrint statusLine ++ pyPrint notFoundLine, [], 0⟩ :=
  ⟨by decide, by decide, c3_both_patterns_empty [] (by decide) (by decide)⟩

/-- C4: a fetch failure with details e produces exactly one standard-error
print of the error label followed by e and exit code 1; every run whose
fetch succeeds exits with code 0 and writes nothing to standard error. -/
theorem c4_error_line_and_exit_codes :
    (∀ e : List Char,
        runProgram (Except.error e) = ⟨[], pyPrint (errLabel ++ e), 1⟩)
    ∧ (∀ html : List Char,
        (runProgram (Except.ok html)).exitCode = 0
        ∧ (runProgram (Except.ok html)).stderr = []) :=
  ⟨fun _ => rfl, fun _ => ⟨rfl, rfl⟩⟩

/-- C5: the printed lines depend only on the stripped titles, so every
presented title is trimmed of surrounding whitespace regardless of the
whitespace in the markup; and the extractor itself does not strip — on the
padded scenario input it returns the title with its surrounding spaces,
which the presenter then prints trimmed. -/
theorem c5_strip_at_presentation_only :
    (∀ (j : Nat) (ts us : List (List Char)),
        ts.map pyStrip = us.map pyStrip →
        presentLines j ts = presentLines j us)
    ∧ extractTitles exPadded = [" Hello World ".data]
    ∧ presentLines 1 (extractTitles exPadded)
        = pyPrint ("1. Hello World".data) := by
  refine ⟨?_, by decide, by decide⟩
  intro j ts
  induction ts generalizing j with
  | nil =>
    intro us h
    cases us with
    | nil => rfl
    | cons u us2 => simp at h
  | cons t ts ih =>
    intro us h
    cases us with
    | nil => simp at h
    | cons u us2 =>
      simp only [List.map_cons, List.cons.injEq] at h
      simp only [presentLines, titleLine, h.1]
      rw [ih (j + 1) us2 h.2]

/-- Witness for C5: two title sequences differing only in surrounding
whitespace print identically. -/
theorem c5_witness :
    ([" hi ".data].map pyStrip = ["hi".data].map pyStrip)
    ∧ presentLines 1 [" hi ".data] = presentLines 1 ["hi".data] :=
  ⟨by decide, c5_strip_at_presentation_only.1 1 _ _ (by decide)⟩

/-- C6 counterexample: on a one-title sequence the presenter stream is not
the spec-described header line followed immediately by the title lines; the
header print carries an embedded newline that inserts a blank line. -/
theorem c6_counterexample :
    present ["Hello World".data] ≠ specPresent ["Hello World".data] := by
  decide

/-- C6 (amended): for a non-empty title sequence the presenter prints the
count header line, then a blank line (from the newline embedded in the
header f-string), then the numbered lines, where each line holds the
1-based index, a dot and a space, and the trimmed title. -/
theorem c6_header_blank_then_numbered :
    (∀ ts : List (List Char), ts ≠ [] →
        present ts
          = specHeader ts.length ++ '\n' :: '\n' :: presentLines 1 ts)
    ∧ (∀ (j : Nat) (t : List Char) (rest : List (List Char)),
        presentLines j (t :: rest)
          = pyPrint (titleLine j t) ++ presentLines (j + 1) rest) := by
  constructor
  · intro ts hts
    rw [present, if_neg hts, headerText_eq]
    simp [pyPrint, List.append_assoc]
  · intro j t rest; rfl

/-- Witness for C6 at the one-title sequence of the scenario. -/
theorem c6_witness :
    (["Hello World".data] ≠ ([] : List (List Char)))
    ∧ present ["Hello World".data]
        = specHeader (["Hello World".data].length)
            ++ '\n' :: '\n' :: presentLines 1 ["Hello World".data] :=
  ⟨by decide, c6_header_blank_then_numbered.1 _ (by decide)⟩

/-- C7: the single request the fetcher builds is a GET to the fixed origin,
carries the browser-identifying User-Agent header, uses a 10 second
timeout, and the response body is decoded as UTF-8. -/
theorem c7_request_configuration :
    theRequest.url = "https://news.ycombinator.com".data
    ∧ theRequest.method = "GET".data
    ∧ theRequest.headerPairs = [("User-Agent".data, "Mozilla/5.0".data)]
    ∧ theRequest.timeoutSeconds = 10
    ∧ theRequest.responseEncoding = "utf-8".data :=
  ⟨rfl, rfl, rfl, rfl, rfl⟩

/-- C8: extraction and presentation are total, so the exit code is 1
exactly when the fetch-and-decode step failed and 0 exactly when it
succeeded, whatever the fetched text. -/
theorem c8_exit_one_only_on_fetch_failure :
    ∀ fetch : Except (List Char) (List Char),
      ((runProgram fetch).exitCode = 1 ↔ ∃ e, fetch = Except.error e)
      ∧ ((runProgram fetch).exitCode = 0
          ↔ ∃ html, fetch = Except.ok html) := by
  intro fetch
  cases fetch with
  | error e => simp [runProgram]
  | ok html => simp [runProgram]

/-- C9: whenever the primary pattern finds nothing, the status line is
printed before any presenter output, so standard output is never only the
presenter lines on such runs. -/
theorem c9_status_line_precedes_presenter :
    ∀ html : List Char, findall1 html = [] →
      (runProgram (Except.ok html)).stdout
          = pyPrint statusLine ++ present (findall2 html)
      ∧ (runProgram (Except.ok html)).stdout ≠ present (findall2 html) := by
  intro html h
  have hx : extractTitles html = findall2 html := by
    simp [extractTitles, h]
  have hs : (runProgram (Except.ok html)).stdout
      = pyPrint statusLine ++ present (findall2 html) := by
    simp [runProgram, h, hx]
  refine ⟨hs, ?_⟩
  rw [hs]
  intro heq
  have hl := congrArg List.length heq
  simp [pyPrint, List.length_append] at hl
  omega

/-- Witness for C9 at the empty input. -/
theorem c9_witness :
    findall1 ([] : List Char) = []
    ∧ ((runProgram (Except.ok ([] : List Char))).stdout
          = pyPrint statusLine ++ present (findall2 [])
        ∧ (runProgram (Except.ok ([] : List Char))).stdout
            ≠ present (findall2 [])) :=
  ⟨by decide, c9_status_line_precedes_presenter [] (by decide)⟩

/-- C10: every title either pattern extracts is, before trimming, non-empty
and free of `<`; trimming at presentation can still empty it, in which case
the printed line is the bare index, dot and space. -/
theorem c10_titles_nonempty_no_tag_open :
    (∀ html t : List Char, t ∈ extractTitles html → GoodTitle t)
    ∧ extractTitles exSpace = [[' ']]
    ∧ pyStrip [' '] = []
    ∧ titleLine 1 [' '] = "1. ".data := by
  refine ⟨?_, by decide, by decide, by decide⟩
  intro html t ht
  by_cases h : findall1 html = []
  · simp [extractTitles, h] at ht
    exact mem_findallAux matchP2_good html.length html t
      (by simpa [findall2] using ht)
  · simp [extractTitles, h] at ht
    exact mem_findallAux matchP1_good html.length html t
      (by simpa [findall1] using ht)

/-- Witness for C10 at the scenario input. -/
theorem c10_witness :
    "Hello World".data ∈ extractTitles exHello
      ∧ GoodTitle ("Hello World".data) :=
  ⟨by decide, c10_titles_nonempty_no_tag_open.1 exHello _ (by decide)⟩

end HNScraper
